import Mathlib

/-!
Verification development for the VW SFTP-to-FTP transfer pipeline
(source: `VW_FTP.py`).

The Python source is shallowly embedded: every pure computation of the
script becomes a Lean function on `List Char` / `String` / `List`-valued
data, and the effectful pipeline (`main`, `download_sftp`, `unzip_file`,
`change_pictures`, `ftp_upload`, `remove_temp_files`) becomes explicit
state passing over a `World` (the environment the run observes: remote
directory listing, ledger file, step outcomes) and `St` (the mutable
state a run builds: emitted side-effect events, ledger contents, the
`temp` working directory).

Python string primitives used by the script (`str.strip`, `s[:-1]`,
`''.join`, `str.startswith`, `str.endswith`, `in`, `sorted`) are
modelled character-exactly on `List Char`; in particular `str.strip`
removes characters of a *set* from both ends, which is what the source
relies on (and is the root of two of its quirks).
-/

deriving instance DecidableEq for Except

/-- Python `str.strip(chars)` drops every leading and trailing character
that belongs to the character set `chars` (not the literal substring). -/
def pyStrip (s : String) (chars : String) : String :=
  ⟨(((s.data.dropWhile (fun c => decide (c ∈ chars.data))).reverse.dropWhile
      (fun c => decide (c ∈ chars.data))).reverse)⟩

/-- Python `s[:-1]`: drop the final character (empty string stays empty). -/
def pyDropLast (s : String) : String :=
  ⟨s.data.dropLast⟩

/-- Python `''.join(l)`: concatenation of a list of strings. -/
def pyJoin (l : List String) : String :=
  ⟨(l.map String.data).flatten⟩

/-- Python `s.startswith(p)` on the character sequences. -/
def pyStartsWith (s p : String) : Bool :=
  p.data.isPrefixOf s.data

/-- Python `s.endswith(p)` on the character sequences. -/
def pyEndsWith (s p : String) : Bool :=
  p.data.isSuffixOf s.data

/-- Python `pat in hay` (substring containment) on character lists. -/
def containsSub (pat : List Char) : List Char → Bool
  | [] => pat.isEmpty
  | c :: rest => pat.isPrefixOf (c :: rest) || containsSub pat rest

/-- Python `<` on strings: lexicographic comparison of code points,
with a proper prefix comparing smaller. -/
def lexLt : List Char → List Char → Bool
  | [], [] => false
  | [], _ :: _ => true
  | _ :: _, [] => false
  | a :: as, b :: bs =>
    if a.toNat < b.toNat then true
    else if b.toNat < a.toNat then false
    else lexLt as bs

/-- Python `s <= t` on strings (`not (t < s)`). -/
def pyLe (s t : String) : Bool :=
  ! lexLt t.data s.data

/-- Relation `descRel a b`: `a` may come before `b` in a descending
(`reverse=True`) sort, i.e. `b <= a` in Python's string order. -/
def descRel (a b : String) : Prop :=
  pyLe b a = true

instance : DecidableRel descRel :=
  fun a b => inferInstanceAs (Decidable (pyLe b a = true))

/-- Error taxonomy of the script: `FTPConnectionError`, `KeyError`,
`DuplicateFileError` (from `errors.py`), plus `FileNotFoundError`
(raised by `open` when `log_file.txt` is absent), `TypeError`
(raised by `math.isnan` on a non-number), and a catch-all for other
exceptions. -/
inductive PyErr where
  | connErr
  | keyErr
  | dupErr
  | fileNotFound
  | typeErr
  | unknownErr
deriving DecidableEq

/-- Fixed filename marker of `VW_FTP.py`:
`PREFIX = 'ops_mdm_veh_inven_en_fr_vw_can'`. -/
def PREFIX_VW : String := "ops_mdm_veh_inven_en_fr_vw_can"

/-- Line written by `log_file`: `filename.strip(".txt") + ".zip"`.
Note that `strip` removes the characters `.`, `t`, `x` from both ends,
not the `.txt` suffix. -/
def logLine (filename : String) : String :=
  pyStrip filename ".txt" ++ ".zip"

/-- Function `check_duplicate`: scans every line of the log file,
setting `repeat` whenever the queried name occurs inside the line
(`filename in line.strip('\n')`), and returns the flag. -/
def check_duplicate (lines : List String) (filename : String) : Bool :=
  lines.foldl
    (fun rep line =>
      if containsSub filename.data (pyStrip line "\n").data then true else rep)
    false

/-- Selection filter of `download_sftp`: the listed names that start
with the fixed marker. -/
def prefixMatches (names : List String) : List String :=
  names.filter (fun f => pyStartsWith f PREFIX_VW)

/-- Selection step of `download_sftp`:
`filename = sorted(files, reverse=True)[0]`. -/
def selectNewest (files : List String) : String :=
  (files.insertionSort descRel).headI

/-- Candidate choice of `download_sftp` as a function of the directory
listing, which pairs each name with its modification time: the script
reads only the names (`sftp.listdir()`), filters them by the marker,
raises `KeyError` when nothing matches, and otherwise picks the first
name of the descending sort. -/
def downloadSelect (entries : List (String × Nat)) : Except PyErr String :=
  let files := prefixMatches (entries.map Prod.fst)
  if files.length = 0 then Except.error PyErr.keyErr
  else Except.ok (selectNewest files)

/-- A cell of the `NON_TRASH_PHOTO_COUNT` column as `pandas` delivers
it: a float (`nan` for an absent cell, an integral value otherwise) or
a string when the column could not be parsed numerically. -/
inductive PyVal where
  | nan
  | num (n : Int)
  | str (s : String)
deriving DecidableEq

/-- One row of the payload table: the photo-count cell and the
`IMAGE_URL_PATTERN` cell. -/
structure Row where
  photoCount : PyVal
  url : String
deriving DecidableEq

/-- Python `math.isnan`: `True` on `nan`, `False` on a number, and a
`TypeError` on anything that is not a real number (e.g. a string). -/
def mathIsnan : PyVal → Except PyErr Bool
  | PyVal.nan => Except.ok true
  | PyVal.num _ => Except.ok false
  | PyVal.str _ => Except.error PyErr.typeErr

/-- Body of the `change_pictures` row loop: when the photo count is not
`nan`, build one link per `i in range(int(count))` by stripping the
character set `seq#.jpg` from both ends of the URL template, appending
the picture number and `.jpg`, and appending a `|` delimiter; join the
list and drop the final character. The row keeps its photo count and
receives the joined links as its URL cell. -/
def changeRow (r : Row) : Except PyErr Row :=
  match mathIsnan r.photoCount with
  | Except.error e => Except.error e
  | Except.ok isn =>
    let pic_path_list : List String :=
      if isn then []
      else
        match r.photoCount with
        | PyVal.num n =>
          (List.range n.toNat).map
            (fun i => (pyStrip r.url "seq#.jpg" ++ toString (i + 1) ++ ".jpg") ++ "|")
        | _ => []
    Except.ok ⟨r.photoCount, pyDropLast (pyJoin pic_path_list)⟩

/-- Function `change_pictures` over the loaded table: the row loop,
stopping at the first row whose photo-count cell makes `math.isnan`
raise. -/
def change_pictures (rows : List Row) : Except PyErr (List Row) :=
  rows.mapM changeRow

/-- Pipe-joining as the specification words it: the given strings
joined with `|` and no trailing delimiter. -/
def specJoin : List String → String
  | [] => ""
  | [x] => x
  | x :: y :: ys => x ++ "|" ++ specJoin (y :: ys)

/-- Specification-side row transform (for the refinement statement of
the amended transform claim): an absent (`nan`) photo count yields an
empty URL cell, a numeric count `n` yields the `n` numbered links
built from the strip-processed template joined with `|` and no
trailing delimiter, and a non-numeric cell raises a `TypeError`. -/
def specChangeRow (r : Row) : Except PyErr Row :=
  match r.photoCount with
  | PyVal.nan => Except.ok ⟨r.photoCount, ""⟩
  | PyVal.num n =>
    Except.ok ⟨r.photoCount,
      specJoin ((List.range n.toNat).map
        (fun i => pyStrip r.url "seq#.jpg" ++ toString (i + 1) ++ ".jpg"))⟩
  | PyVal.str _ => Except.error PyErr.typeErr

/-- A directory tree of the working area: named subdirectories and the
names of the regular files directly contained. -/
inductive FsTree where
  | node : List (String × FsTree) → List String → FsTree

mutual

/-- Python `os.walk` (top-down): the visited directory paths paired
with the regular-file names they directly contain, root first. -/
def walk (root : String) : FsTree → List (String × List String)
  | FsTree.node subs files => (root, files) :: walkSubs root subs

/-- Walk of a list of named subtrees, each rooted at `root/<name>`. -/
def walkSubs (root : String) : List (String × FsTree) → List (String × List String)
  | [] => []
  | (n, t) :: rest => walk (root ++ "/" ++ n) t ++ walkSubs root rest

end

/-- Inner loop of `ftp_upload`: each file of the directory is sent by
its base name unless the directory path ends with `__MACOSX`
(`if not new_path.endswith('__MACOSX')`). -/
def uploadFiles (p : String) : List String → List String
  | [] => []
  | n :: ns =>
    if pyEndsWith p "__MACOSX" then uploadFiles p ns else n :: uploadFiles p ns

/-- Outer loop of `ftp_upload` over the entries produced by the walk. -/
def uploadLoop : List (String × List String) → List String
  | [] => []
  | e :: rest => uploadFiles e.1 e.2 ++ uploadLoop rest

/-- Function `ftp_upload`: names sent (in `STOR` order) when uploading
the working area rooted at `root` with contents `t`. -/
def ftp_upload (root : String) (t : FsTree) : List String :=
  uploadLoop (walk root t)

/-- Working-area tree used to exercise `ftp_upload`: a file `a` at the
root, a metadata directory `__MACOSX` holding the file `meta`, and a
deeper directory `__MACOSX/sub` holding the file `deep`. -/
def exTree : FsTree :=
  FsTree.node [("__MACOSX", FsTree.node [("sub", FsTree.node [] ["deep"])] ["meta"])] ["a"]

/-- Side effects a run can perform, in the order the script performs
them: downloading the chosen archive (`sftp.get`), appending its ledger
line (`log_file`), extracting into the working area (`unzip_file`),
renaming the payload (`convert_file`), rewriting the table
(`change_pictures`), uploading (`ftp_upload`), and tearing the working
area down (`remove_temp_files` plus `os.rmdir`). -/
inductive Ev where
  | download (f : String)
  | ledgerWrite (s : String)
  | expand (f : String)
  | rename (f : String)
  | transform (f : String)
  | upload (f : String)
  | cleanup
deriving DecidableEq

/-- Environment one run observes: the `/vw_out/` listing (name and
modification time per entry), the log-file contents (`none` when
`log_file.txt` does not exist), whether the SFTP login, the download,
the unzip and the FTP upload succeed, and the rows of the payload
table. -/
structure World where
  entries : List (String × Nat)
  ledger : Option (List String)
  connOk : Bool
  downloadOk : Bool
  unzipOk : Bool
  rows : List Row
  uploadOk : Bool

/-- State a run builds: the side-effect events emitted so far, the
ledger-file contents, and whether the `temp` working directory exists. -/
structure St where
  events : List Ev
  ledger : Option (List String)
  tempExists : Bool
deriving DecidableEq

/-- Function `download_sftp`: connect (authentication failure raises
`FTPConnectionError`), list `/vw_out/`, filter by the marker, raise
`KeyError` on no match, pick the head of the descending sort, consult
the log file (`check_duplicate` opens it and raises `FileNotFoundError`
when absent; a hit raises `DuplicateFileError`), then download the file
and immediately append its ledger line (`log_file`). -/
def download_sftp (w : World) (s : St) : Except PyErr (String × St) :=
  if w.connOk = false then Except.error PyErr.connErr
  else
    let files := prefixMatches (w.entries.map Prod.fst)
    if files.length = 0 then Except.error PyErr.keyErr
    else
      let filename := selectNewest files
      match s.ledger with
      | none => Except.error PyErr.fileNotFound
      | some lines =>
        if check_duplicate lines filename = true then Except.error PyErr.dupErr
        else
          if filename = "" then Except.error PyErr.keyErr
          else if w.downloadOk = false then Except.error PyErr.unknownErr
          else
            let s1 : St := ⟨s.events ++ [Ev.download filename], s.ledger, s.tempExists⟩
            let s2 : St :=
              ⟨s1.events ++ [Ev.ledgerWrite (logLine filename)],
               some (lines ++ [logLine filename]), s1.tempExists⟩
            Except.ok (filename, s2)

/-- Function `convert_file`: `filename.split('.')[0] + new_ext` (the
stem before the first dot with the new extension), after renaming the
file on disk. -/
def convertName (filename : String) (newExt : String) : String :=
  ⟨filename.data.takeWhile (fun c => ! (c == '.'))⟩ ++ newExt

/-- Steps of the `try` body of `main` after `download_sftp` returned
`filename` in state `s1`: unzip into `temp` (which creates the working
directory), rename to `.csv`, run `change_pictures`, rename back to
`.txt`, upload, then remove the `temp` contents and the directory
itself. A raising step leaves the state as it stood. -/
def pipelineRest (w : World) (filename : String) (s1 : St) : St × Option PyErr :=
  if w.unzipOk = false then (s1, some PyErr.unknownErr)
  else
    let s2 : St := ⟨s1.events ++ [Ev.expand filename], s1.ledger, true⟩
    let fcsv := convertName filename ".csv"
    let s2r : St := ⟨s2.events ++ [Ev.rename fcsv], s2.ledger, s2.tempExists⟩
    let s3 : St := ⟨s2r.events ++ [Ev.transform fcsv], s2r.ledger, s2r.tempExists⟩
    match change_pictures w.rows with
    | Except.error e => (s3, some e)
    | Except.ok _ =>
      let ftxt := convertName fcsv ".txt"
      let s3r : St := ⟨s3.events ++ [Ev.rename ftxt], s3.ledger, s3.tempExists⟩
      let s4 : St := ⟨s3r.events ++ [Ev.upload ftxt], s3r.ledger, s3r.tempExists⟩
      if w.uploadOk = false then (s4, some PyErr.unknownErr)
      else
        let s5 : St := ⟨s4.events ++ [Ev.cleanup], s4.ledger, false⟩
        (s5, none)

/-- The `try` body of `main` plus the effects it reaches: `download_sftp`
followed by the remaining steps. The returned pair is the state reached
and the exception that escaped the body, if any; there is no cleanup
handler on the error path. -/
def runPipeline (w : World) : St × Option PyErr :=
  let s0 : St := ⟨[], w.ledger, false⟩
  match download_sftp w s0 with
  | Except.error e => (s0, some e)
  | Except.ok (filename, s1) => pipelineRest w filename s1

/-- How `main` classifies an escaped exception: dedicated handlers for
`FTPConnectionError`, `KeyError` and `DuplicateFileError`, and the
`except Exception` handler (reported as `Unknown error`) for everything
else, including `FileNotFoundError` and `TypeError`. -/
inductive Caught where
  | conn
  | key
  | dup
  | unknownC
deriving DecidableEq

/-- Exception-to-handler mapping of `main`. -/
def classify : PyErr → Caught
  | PyErr.connErr => Caught.conn
  | PyErr.keyErr => Caught.key
  | PyErr.dupErr => Caught.dup
  | PyErr.fileNotFound => Caught.unknownC
  | PyErr.typeErr => Caught.unknownC
  | PyErr.unknownErr => Caught.unknownC

/-- Function `main`: run the pipeline body; `run_success` is set only
when the body completes, and every exception is swallowed by a handler.
The result is the final state, the `run_success` flag, and the handler
that fired. -/
def pyMain (w : World) : St × Bool × Option Caught :=
  match runPipeline w with
  | (s, none) => (s, true, none)
  | (s, some e) => (s, false, some (classify e))

/-- Full event script of a run that downloads `f` and completes. -/
def script (f : String) : List Ev :=
  [Ev.download f, Ev.ledgerWrite (logLine f), Ev.expand f,
   Ev.rename (convertName f ".csv"), Ev.transform (convertName f ".csv"),
   Ev.rename (convertName (convertName f ".csv") ".txt"),
   Ev.upload (convertName (convertName f ".csv") ".txt"), Ev.cleanup]

/-- Steps of the pipeline that follow the download, per the event
alphabet: expansion, renames, the transform, and the upload. -/
def isSubsequentStep : Ev → Bool
  | Ev.expand _ => true
  | Ev.rename _ => true
  | Ev.transform _ => true
  | Ev.upload _ => true
  | _ => false

/-- Archive name used by the concrete runs below. -/
def fileA : String := "ops_mdm_veh_inven_en_fr_vw_can_20200101.zip"

/-- A run in which every step succeeds. -/
def wOk : World :=
  ⟨[(fileA, 0)], some [], true, true, true, [⟨PyVal.num 2, "http://h/a/seq#.jpg"⟩], true⟩

/-- A run in which `change_pictures` raises mid-transform (a
non-numeric photo-count cell), after the working area was populated. -/
def wFailT : World :=
  ⟨[(fileA, 0)], some [], true, true, true, [⟨PyVal.str "NA", "u"⟩], true⟩

/-- A run whose chosen candidate is already in the ledger. -/
def wDup : World :=
  ⟨[(fileA, 0)], some [fileA], true, true, true, [], true⟩

/-- A run on a fresh deployment: `log_file.txt` does not exist. -/
def wNoLog : World :=
  ⟨[(fileA, 0)], none, true, true, true, [], true⟩

/-- Directory listing with three matching candidates (out of
modification-time order) and one non-matching entry. -/
def exEntries : List (String × Nat) :=
  [("ops_mdm_veh_inven_en_fr_vw_can_20200101.zip", 7),
   ("ops_mdm_veh_inven_en_fr_vw_can_20200103.zip", 1),
   ("ops_mdm_veh_inven_en_fr_vw_can_20200102.zip", 9),
   ("other.txt", 3)]

theorem dropWhile_eq_self_of_all (p : Char → Bool) (xs : List Char)
    (h : ∀ c ∈ xs, p c = false) : xs.dropWhile p = xs := by
  cases xs with
  | nil => rfl
  | cons c rest => simp [List.dropWhile_cons, h c (List.mem_cons_self c rest)]

theorem dropWhile_append_all (p : Char → Bool) (xs ys : List Char)
    (h : ∀ c ∈ xs, p c = true) : (xs ++ ys).dropWhile p = ys.dropWhile p := by
  induction xs with
  | nil => rfl
  | cons c rest ih =>
    rw [List.cons_append, List.dropWhile_cons]
    simp only [h c (List.mem_cons_self c rest), if_true]
    exact ih (fun d hd => h d (List.mem_cons_of_mem c hd))

theorem pyStrip_eq_self (s cs : String) (h : ∀ c ∈ s.data, c ∉ cs.data) :
    pyStrip s cs = s := by
  apply String.ext
  show (((s.data.dropWhile _).reverse.dropWhile _).reverse) = s.data
  rw [dropWhile_eq_self_of_all _ s.data
    (fun c hc => decide_eq_false (h c hc))]
  rw [dropWhile_eq_self_of_all _ s.data.reverse
    (fun c hc => decide_eq_false (h c (List.mem_reverse.mp hc)))]
  exact List.reverse_reverse s.data

theorem containsSub_iff (pat hay : List Char) :
    containsSub pat hay = true ↔ pat <:+: hay := by
  induction hay with
  | nil =>
    simp [containsSub, List.isEmpty_iff, List.infix_nil]
  | cons c rest ih =>
    simp [containsSub, List.infix_cons_iff, List.isPrefixOf_iff_prefix, ih]

theorem check_duplicate_eq_any (lines : List String) (filename : String) :
    check_duplicate lines filename
      = lines.any (fun line => containsSub filename.data (pyStrip line "\n").data) := by
  unfold check_duplicate
  suffices hgen : ∀ (b : Bool),
      lines.foldl
        (fun rep line =>
          if containsSub filename.data (pyStrip line "\n").data then true else rep) b
      = (b || lines.any (fun line => containsSub filename.data (pyStrip line "\n").data)) by
    simpa using hgen false
  induction lines with
  | nil => intro b; simp
  | cons l rest ih =>
    intro b
    rw [List.foldl_cons, ih, List.any_cons]
    by_cases h : containsSub filename.data (pyStrip l "\n").data = true <;> simp [h]

/-- C5: `check_duplicate` returns true exactly when some ledger line
contains the queried name as a substring (lines contain no newline, as
they are produced by line iteration). -/
theorem c5_theorem (lines : List String) (name : String)
    (hnl : ∀ l ∈ lines, ∀ c ∈ l.data, c ≠ '\n') :
    check_duplicate lines name = true ↔ ∃ l ∈ lines, name.data <:+: l.data := by
  rw [check_duplicate_eq_any, List.any_eq_true]
  constructor
  · rintro ⟨l, hl, h⟩
    rw [pyStrip_eq_self l "\n" (fun c hc => by simpa using hnl l hl c hc)] at h
    exact ⟨l, hl, (containsSub_iff _ _).mp h⟩
  · rintro ⟨l, hl, h⟩
    refine ⟨l, hl, ?_⟩
    rw [pyStrip_eq_self l "\n" (fun c hc => by simpa using hnl l hl c hc)]
    exact (containsSub_iff _ _).mpr h

/-- C5 witness: the ledger line `foo_20200101.zip` is hit both by the
full stem `foo_20200101` and by the shorter query `foo_2020010`. -/
theorem c5_witness :
    check_duplicate ["foo_20200101.zip"] "foo_20200101" = true
    ∧ check_duplicate ["foo_20200101.zip"] "foo_2020010" = true := by
  constructor
  · have h5 := c5_theorem ["foo_20200101.zip"] "foo_20200101" (by decide)
    exact h5.mpr ⟨"foo_20200101.zip", by simp, ⟨[], ['.', 'z', 'i', 'p'], by decide⟩⟩
  · have h5 := c5_theorem ["foo_20200101.zip"] "foo_2020010" (by decide)
    exact h5.mpr ⟨"foo_20200101.zip", by simp, ⟨[], ['1', '.', 'z', 'i', 'p'], by decide⟩⟩

/-- C3: evaluation of the `log_file` line at the failing input `x.txt`:
`"x.txt".strip(".txt")` erases the whole stem (every character of
`x.txt` belongs to the stripped character set), so the stored line is
`.zip`, not `x.zip`. -/
theorem c3_theorem : logLine "x.txt" = ".zip" ∧ logLine "x.txt" ≠ "x.zip" := by
  exact ⟨by decide, by decide⟩

theorem lexLt_irrefl : ∀ x : List Char, lexLt x x = false
  | [] => rfl
  | a :: as => by
    simp only [lexLt, Nat.lt_irrefl, if_false]
    exact lexLt_irrefl as

theorem lexLt_asymm : ∀ x y : List Char, lexLt x y = true → lexLt y x = false
  | [], [] => by simp [lexLt]
  | [], _ :: _ => by intro _; rfl
  | _ :: _, [] => by simp [lexLt]
  | a :: as, b :: bs => by
    intro h
    simp only [lexLt] at h ⊢
    by_cases hab : a.toNat < b.toNat
    · have hba : ¬ b.toNat < a.toNat := by omega
      simp [hab, hba]
    · by_cases hba : b.toNat < a.toNat
      · simp [hab, hba] at h
      · simp only [hab, hba, if_false] at h ⊢
        exact lexLt_asymm as bs h

theorem lexLt_neg_trans : ∀ x y z : List Char,
    lexLt x y = false → lexLt y z = false → lexLt x z = false
  | x, y, [] => by
    intro _ _
    cases x <;> rfl
  | [], [], _ :: _ => by intro _ h2; exact h2
  | [], _ :: _, _ :: _ => by intro h1 _; simp [lexLt] at h1
  | _ :: _, [], _ :: _ => by intro _ h2; simp [lexLt] at h2
  | a :: as, b :: bs, c :: cs => by
    intro h1 h2
    simp only [lexLt] at h1 h2 ⊢
    by_cases hab : a.toNat < b.toNat
    · simp [hab] at h1
    · by_cases hbc : b.toNat < c.toNat
      · simp [hbc] at h2
      · have hac : ¬ a.toNat < c.toNat := by omega
        simp only [hac, if_false]
        by_cases hca : c.toNat < a.toNat
        · simp [hca]
        · simp only [hca, if_false]
          have hba : ¬ b.toNat < a.toNat := by omega
          have hcb : ¬ c.toNat < b.toNat := by omega
          simp only [hab, hba, if_false] at h1
          simp only [hbc, hcb, if_false] at h2
          exact lexLt_neg_trans as bs cs h1 h2

theorem selectNewest_spec (files : List String) (hne : files ≠ []) :
    selectNewest files ∈ files
    ∧ ∀ x ∈ files, pyLe x (selectNewest files) = true := by
  haveI hT : IsTotal String descRel := ⟨fun a b => by
    unfold descRel pyLe
    by_cases h : lexLt a.data b.data = true
    · right; simp [lexLt_asymm _ _ h]
    · left; simp [Bool.not_eq_true] at h; simp [h]⟩
  haveI hR : IsTrans String descRel := ⟨fun a b c hab hbc => by
    unfold descRel pyLe at *
    simp only [Bool.not_eq_true'] at hab hbc ⊢
    exact lexLt_neg_trans a.data b.data c.data hab hbc⟩
  have hperm := List.perm_insertionSort descRel files
  have hsort := List.sorted_insertionSort descRel files
  unfold selectNewest
  cases hs : files.insertionSort descRel with
  | nil =>
    exfalso
    rw [hs] at hperm
    exact hne hperm.symm.eq_nil
  | cons m t =>
    rw [hs] at hperm hsort
    simp only [List.headI]
    constructor
    · exact hperm.mem_iff.mp (List.mem_cons_self m t)
    · intro x hx
      rcases List.mem_cons.mp (hperm.mem_iff.mpr hx) with rfl | hxt
      · simp [pyLe, lexLt_irrefl]
      · exact List.rel_of_sorted_cons hsort x hxt

/-- C6: the Selector is a function of the listed names only (the
modification times never enter), raises `KeyError` when nothing matches
the marker, and otherwise returns a matching name that every matching
name compares at most equal to in Python's string order — the
lexicographically greatest candidate. -/
theorem c6_theorem (entries : List (String × Nat)) :
    (∀ entries2 : List (String × Nat),
        entries2.map Prod.fst = entries.map Prod.fst →
        downloadSelect entries2 = downloadSelect entries)
    ∧ (prefixMatches (entries.map Prod.fst) = [] →
        downloadSelect entries = Except.error PyErr.keyErr)
    ∧ (prefixMatches (entries.map Prod.fst) ≠ [] →
        ∃ m, downloadSelect entries = Except.ok m
          ∧ m ∈ prefixMatches (entries.map Prod.fst)
          ∧ ∀ x ∈ prefixMatches (entries.map Prod.fst), pyLe x m = true) := by
  refine ⟨?_, ?_, ?_⟩
  · intro e2 h
    unfold downloadSelect
    rw [h]
  · intro h
    unfold downloadSelect
    simp [h]
  · intro h
    obtain ⟨hmem, hmax⟩ := selectNewest_spec _ h
    refine ⟨selectNewest (prefixMatches (entries.map Prod.fst)), ?_, hmem, hmax⟩
    unfold downloadSelect
    rw [if_neg (by simpa [List.length_eq_zero] using h)]

/-- C6 witness: with three matching candidates whose modification times
are out of date order, the candidate with the greatest embedded date is
chosen. -/
theorem c6_witness :
    downloadSelect exEntries
      = Except.ok "ops_mdm_veh_inven_en_fr_vw_can_20200103.zip" := by
  obtain ⟨m, h1, -, -⟩ := (c6_theorem exEntries).2.2 (by decide)
  have h2 : downloadSelect exEntries
      = Except.ok "ops_mdm_veh_inven_en_fr_vw_can_20200103.zip" := by decide
  exact h2

theorem pyStrip_data (s cs : String) :
    (pyStrip s cs).data
      = ((s.data.dropWhile (fun c => decide (c ∈ cs.data))).reverse.dropWhile
          (fun c => decide (c ∈ cs.data))).reverse := rfl

theorem pyDropLast_data (s : String) : (pyDropLast s).data = s.data.dropLast := rfl

theorem pyJoin_data (l : List String) :
    (pyJoin l).data = (l.map String.data).flatten := rfl

theorem pyDropLast_pyJoin_pipe : ∀ l : List String,
    pyDropLast (pyJoin (l.map (fun s => s ++ "|"))) = specJoin l
  | [] => rfl
  | [x] => by
    apply String.ext
    rw [pyDropLast_data, pyJoin_data]
    simp only [List.map_cons, List.map_nil, List.flatten_cons, List.flatten_nil,
      List.append_nil, String.data_append]
    exact List.dropLast_concat
  | x :: y :: ys => by
    apply String.ext
    have ih := congrArg String.data (pyDropLast_pyJoin_pipe (y :: ys))
    rw [pyDropLast_data, pyJoin_data] at ih ⊢
    rw [show specJoin (x :: y :: ys) = x ++ "|" ++ specJoin (y :: ys) from rfl]
    simp only [List.map_cons, List.flatten_cons, String.data_append] at ih ⊢
    have hne : (y.data ++ "|".data) ++ ((ys.map (fun s => s ++ "|")).map String.data).flatten ≠ [] := by
      intro hcontra
      have hlen := congrArg List.length hcontra
      have h1 : ("|".data).length = 1 := rfl
      simp [List.length_append, h1] at hlen
    rw [List.dropLast_append_of_ne_nil _ hne, ih]

theorem changeRow_eq_spec (r : Row) : changeRow r = specChangeRow r := by
  rcases r with ⟨pc, url⟩
  cases pc with
  | nan => rfl
  | str s => rfl
  | num n =>
    simp only [changeRow, specChangeRow, mathIsnan]
    have hmap : (List.range n.toNat).map
        (fun i => (pyStrip url "seq#.jpg" ++ toString (i + 1) ++ ".jpg") ++ "|")
        = ((List.range n.toNat).map
            (fun i => pyStrip url "seq#.jpg" ++ toString (i + 1) ++ ".jpg")).map
          (fun s => s ++ "|") := by
      rw [List.map_map]
      rfl
    simp only [Bool.false_eq_true, if_false]
    rw [hmap, pyDropLast_pyJoin_pipe]

theorem stripSeq_of_clean (t : String) (h1 : t.data ≠ [])
    (h2 : ∀ c, t.data.head? = some c → c ∉ ("seq#.jpg").data) :
    pyStrip (t ++ "/seq#.jpg") "seq#.jpg" = t ++ "/" := by
  apply String.ext
  rw [pyStrip_data, String.data_append, String.data_append]
  rcases hd : t.data with _ | ⟨c, rest⟩
  · exact absurd hd h1
  · have hc : decide (c ∈ ("seq#.jpg").data) = false :=
      decide_eq_false (h2 c (by rw [hd]; rfl))
    rw [List.cons_append, List.dropWhile_cons, hc]
    simp only [Bool.false_eq_true, if_false]
    rw [show (c :: (rest ++ "/seq#.jpg".data)).reverse
          = ("/seq#.jpg".data).reverse ++ (c :: rest).reverse from by
        rw [← List.cons_append, List.reverse_append]]
    rw [show ("/seq#.jpg".data).reverse ++ (c :: rest).reverse
          = ['g', 'p', 'j', '.', '#', 'q', 'e', 's'] ++ ('/' :: (c :: rest).reverse) from rfl]
    rw [dropWhile_append_all _ _ _ (by decide)]
    rw [List.dropWhile_cons]
    rw [show decide (('/' : Char) ∈ ("seq#.jpg").data) = false from by decide]
    simp only [Bool.false_eq_true, if_false]
    rw [List.reverse_cons, List.reverse_reverse]

/-- C2 counterexample: on the template `gallery/seq#.jpg` with photo
count 1 the code produces `allery/1.jpg` — `strip('seq#.jpg')` also
eats the leading `g` — not the claimed substitution result
`gallery/1.jpg`; and a non-numeric photo count propagates a `TypeError`
instead of yielding an empty URL field. -/
theorem c2_counterexample :
    change_pictures [⟨PyVal.num 1, "gallery/seq#.jpg"⟩]
      = Except.ok [⟨PyVal.num 1, "allery/1.jpg"⟩]
    ∧ "allery/1.jpg" ≠ "gallery/1.jpg"
    ∧ change_pictures [⟨PyVal.str "NA", "x/seq#.jpg"⟩]
      = Except.error PyErr.typeErr :=
  ⟨by decide, by decide, by decide⟩

/-- C2 amended: `change_pictures` maps every row through the
specification transform (numeric count `n` yields the `n` numbered
links built on the both-ends character-set strip of the template,
joined with `|`, no trailing delimiter; `nan` yields the empty string;
a non-numeric cell raises a `TypeError`); and on a template of shape
`t ++ "/seq#.jpg"` whose first character lies outside the stripped set,
the strip equals dropping the trailing `seq#.jpg` segment, recovering
the substitution form the claim describes. -/
theorem c2_amended_theorem :
    (∀ rows : List Row, change_pictures rows = rows.mapM specChangeRow)
    ∧ ∀ t : String, t.data ≠ [] →
        (∀ c, t.data.head? = some c → c ∉ ("seq#.jpg").data) →
        pyStrip (t ++ "/seq#.jpg") "seq#.jpg" = t ++ "/" := by
  constructor
  · intro rows
    unfold change_pictures
    rw [show changeRow = specChangeRow from funext changeRow_eq_spec]
  · exact stripSeq_of_clean

/-- C2 amended witness, at photo count 3 and the clean template
`http://h/cars/seq#.jpg`: the code agrees with the specification
transform and the strip agrees with segment substitution. -/
theorem c2_amended_witness :
    change_pictures [⟨PyVal.num 3, "http://h/cars/seq#.jpg"⟩]
      = [(⟨PyVal.num 3, "http://h/cars/seq#.jpg"⟩ : Row)].mapM specChangeRow
    ∧ pyStrip ("http://h/cars" ++ "/seq#.jpg") "seq#.jpg" = "http://h/cars" ++ "/" :=
  ⟨c2_amended_theorem.1 [⟨PyVal.num 3, "http://h/cars/seq#.jpg"⟩],
   c2_amended_theorem.2 "http://h/cars" (by decide) (by decide)⟩

/-- C10: a negative photo count runs the build loop zero times
(`range` of a negative count is empty), so the URL field becomes the
empty string, exactly as for an absent (`nan`) count, and no error is
raised. -/
theorem c10_theorem (n : Int) (url : String) (h : n < 0) :
    change_pictures [⟨PyVal.num n, url⟩] = Except.ok [⟨PyVal.num n, ""⟩]
    ∧ changeRow ⟨PyVal.num n, url⟩ = Except.ok ⟨PyVal.num n, ""⟩
    ∧ changeRow ⟨PyVal.nan, url⟩ = Except.ok ⟨PyVal.nan, ""⟩ := by
  have htn : n.toNat = 0 := Int.toNat_of_nonpos h.le
  have h1 : changeRow ⟨PyVal.num n, url⟩ = Except.ok ⟨PyVal.num n, ""⟩ := by
    simp only [changeRow, mathIsnan, htn, List.range_zero, List.map_nil,
      Bool.false_eq_true, if_false]
    rfl
  refine ⟨?_, h1, rfl⟩
  simp only [change_pictures, List.mapM_cons, List.mapM_nil, h1]
  rfl

/-- C10 witness at photo count `-2`. -/
theorem c10_witness :
    change_pictures [⟨PyVal.num (-2), "u/seq#.jpg"⟩]
      = Except.ok [⟨PyVal.num (-2), ""⟩]
    ∧ changeRow ⟨PyVal.num (-2), "u/seq#.jpg"⟩ = Except.ok ⟨PyVal.num (-2), ""⟩
    ∧ changeRow ⟨PyVal.nan, "u/seq#.jpg"⟩ = Except.ok ⟨PyVal.nan, ""⟩ :=
  c10_theorem (-2) "u/seq#.jpg" (by decide)

theorem uploadFiles_eq (p : String) (files : List String) :
    uploadFiles p files = if pyEndsWith p "__MACOSX" then [] else files := by
  induction files with
  | nil => simp [uploadFiles]
  | cons n ns ih =>
    by_cases h : pyEndsWith p "__MACOSX" <;> simp [uploadFiles, h, ih]

theorem mem_uploadLoop (L : List (String × List String)) (name : String) :
    name ∈ uploadLoop L
    ↔ ∃ e ∈ L, pyEndsWith e.1 "__MACOSX" = false ∧ name ∈ e.2 := by
  induction L with
  | nil => simp [uploadLoop]
  | cons e rest ih =>
    rw [show uploadLoop (e :: rest) = uploadFiles e.1 e.2 ++ uploadLoop rest from rfl]
    rw [List.mem_append, ih, uploadFiles_eq]
    by_cases h : pyEndsWith e.1 "__MACOSX" <;> simp [h]

/-- C4 counterexample: in a working area with a file `a` at the root, a
file `meta` directly inside `__MACOSX`, and a file `deep` inside
`__MACOSX/sub`, the walk visits the three directories and the upload
sends `a` and `deep` — `deep` lies under the `__MACOSX` subtree but its
directory path `temp/__MACOSX/sub` does not end with the marker, so the
claimed exclusion of the whole subtree does not hold. -/
theorem c4_counterexample :
    ftp_upload "temp" exTree = ["a", "deep"]
    ∧ walk "temp" exTree
      = [("temp", ["a"]), ("temp/__MACOSX", ["meta"]), ("temp/__MACOSX/sub", ["deep"])] :=
  ⟨by decide, by decide⟩

/-- C4 amended: `ftp_upload` sends exactly the files whose walked
directory path does not end with `__MACOSX`: a name is uploaded iff the
walk visits a directory whose path does not end with the marker and
whose file list contains it. Files directly inside a `__MACOSX`
directory are skipped; files of deeper subdirectories beneath it are
uploaded. -/
theorem c4_amended_theorem (root : String) (t : FsTree) (name : String) :
    name ∈ ftp_upload root t
    ↔ ∃ e ∈ walk root t, pyEndsWith e.1 "__MACOSX" = false ∧ name ∈ e.2 := by
  unfold ftp_upload
  exact mem_uploadLoop (walk root t) name

/-- C4 amended witness on the example tree: `deep` is uploaded, `meta`
is not. -/
theorem c4_amended_witness :
    ("deep" ∈ ftp_upload "temp" exTree) ∧ ¬ ("meta" ∈ ftp_upload "temp" exTree) := by
  constructor
  · have h4 := c4_amended_theorem "temp" exTree "deep"
    exact h4.mpr ⟨("temp/__MACOSX/sub", ["deep"]), by decide, by decide, by decide⟩
  · decide

theorem download_sftp_ok (w : World) (s s' : St) (f : String)
    (h : download_sftp w s = Except.ok (f, s')) :
    s'.events = s.events ++ [Ev.download f, Ev.ledgerWrite (logLine f)] := by
  unfold download_sftp at h
  by_cases h1 : w.connOk = false
  · simp [h1] at h
  · rw [if_neg h1] at h
    by_cases h2 : (prefixMatches (w.entries.map Prod.fst)).length = 0
    · rw [if_pos h2] at h
      cases h
    · rw [if_neg h2] at h
      rcases hl : s.ledger with _ | lines
      · rw [hl] at h
        cases h
      · rw [hl] at h
        simp only [] at h
        by_cases h3 : check_duplicate lines (selectNewest (prefixMatches (w.entries.map Prod.fst))) = true
        · rw [if_pos h3] at h
          cases h
        · rw [if_neg h3] at h
          by_cases h4 : selectNewest (prefixMatches (w.entries.map Prod.fst)) = ""
          · rw [if_pos h4] at h
            cases h
          · rw [if_neg h4] at h
            by_cases h5 : w.downloadOk = false
            · rw [if_pos h5] at h
              cases h
            · rw [if_neg h5] at h
              obtain ⟨rfl, rfl⟩ := Prod.mk.injEq .. ▸ (Except.ok.injEq .. ▸ h)
              simp

theorem pipelineRest_success_temp (w : World) (f : String) (s1 s : St)
    (h : pipelineRest w f s1 = (s, none)) : s.tempExists = false := by
  unfold pipelineRest at h
  by_cases hu : w.unzipOk = false
  · rw [if_pos hu] at h
    simp at h
  · rw [if_neg hu] at h
    simp only [] at h
    rcases hc : change_pictures w.rows with e | rows2
    · rw [hc] at h
      simp at h
    · rw [hc] at h
      simp only [] at h
      by_cases hup : w.uploadOk = false
      · rw [if_pos hup] at h
        simp at h
      · rw [if_neg hup] at h
        obtain ⟨rfl, -⟩ := Prod.mk.injEq .. ▸ h
        rfl

theorem runPipeline_success_temp (w : World) (s : St)
    (h : runPipeline w = (s, none)) : s.tempExists = false := by
  unfold runPipeline at h
  simp only [] at h
  rcases hd : download_sftp w ⟨[], w.ledger, false⟩ with e | ⟨f, s1⟩
  · rw [hd] at h
    simp at h
  · rw [hd] at h
    simp only [] at h
    exact pipelineRest_success_temp w f s1 s h

/-- C1 amended: when `main` reaches the end of its try block
(`run_success` is set), the working area has been removed; teardown is
part of the success path only. -/
theorem c1_amended_theorem (w : World) (h : (pyMain w).2.1 = true) :
    (pyMain w).1.tempExists = false := by
  unfold pyMain at h ⊢
  rcases hr : runPipeline w with ⟨s, oe⟩
  rw [hr] at h
  cases oe with
  | none => exact runPipeline_success_temp w s hr
  | some e => exact Bool.noConfusion h

/-- C1 amended witness: the fully successful run ends without the
working area. -/
theorem c1_amended_witness : (pyMain wOk).1.tempExists = false :=
  c1_amended_theorem wOk (by decide)

/-- C1 counterexample: in the run whose transform raises (non-numeric
photo-count cell) after the archive was expanded, `main` swallows the
exception and never runs `remove_temp_files`, so the run fails and the
working area is still present afterwards. -/
theorem c1_counterexample :
    (pyMain wFailT).2.1 = false ∧ (pyMain wFailT).1.tempExists = true :=
  ⟨by decide, by decide⟩

/-- C8: when the chosen candidate is already in the ledger,
`download_sftp` raises `DuplicateFileError` before downloading: the
run performs no side effect (no events), leaves the ledger unchanged,
never creates the working area, fails, and is classified under the
`DuplicateFileError` handler. -/
theorem c8_theorem (w : World) (lines : List String)
    (hconn : w.connOk = true)
    (hled : w.ledger = some lines)
    (hmatch : prefixMatches (w.entries.map Prod.fst) ≠ [])
    (hdup : check_duplicate lines
      (selectNewest (prefixMatches (w.entries.map Prod.fst))) = true) :
    pyMain w = (⟨[], some lines, false⟩, false, some Caught.dup) := by
  have hlen : ¬ (prefixMatches (w.entries.map Prod.fst)).length = 0 := by
    simpa [List.length_eq_zero] using hmatch
  have hd : download_sftp w ⟨[], w.ledger, false⟩ = Except.error PyErr.dupErr := by
    unfold download_sftp
    rw [if_neg (by simp [hconn]), if_neg hlen]
    simp only [hled]
    rw [if_pos hdup]
  have hrp : runPipeline w = (⟨[], w.ledger, false⟩, some PyErr.dupErr) := by
    unfold runPipeline
    simp only []
    rw [hd]
  unfold pyMain
  rw [hrp, hled]
  rfl

/-- C8 witness: the concrete duplicate run. -/
theorem c8_witness :
    pyMain wDup = (⟨[], some [fileA], false⟩, false, some Caught.dup) :=
  c8_theorem wDup [fileA] rfl rfl (by decide) (by decide)

/-- C9: when the log file does not exist, `check_duplicate`'s `open`
raises `FileNotFoundError` before any download: the run performs no
side effect, the error escapes `download_sftp`, and `main` reports it
through the generic `except Exception` handler, so the run fails. -/
theorem c9_theorem (w : World)
    (hconn : w.connOk = true)
    (hmatch : prefixMatches (w.entries.map Prod.fst) ≠ [])
    (hled : w.ledger = none) :
    runPipeline w = (⟨[], none, false⟩, some PyErr.fileNotFound)
    ∧ pyMain w = (⟨[], none, false⟩, false, some Caught.unknownC) := by
  have hlen : ¬ (prefixMatches (w.entries.map Prod.fst)).length = 0 := by
    simpa [List.length_eq_zero] using hmatch
  have hd : download_sftp w ⟨[], w.ledger, false⟩
      = Except.error PyErr.fileNotFound := by
    unfold download_sftp
    rw [if_neg (by simp [hconn]), if_neg hlen]
    simp only [hled]
  have hrp : runPipeline w = (⟨[], w.ledger, false⟩, some PyErr.fileNotFound) := by
    unfold runPipeline
    simp only []
    rw [hd]
  rw [hled] at hrp
  refine ⟨hrp, ?_⟩
  unfold pyMain
  rw [hrp]
  rfl

/-- C9 witness: the concrete fresh-deployment run. -/
theorem c9_witness :
    runPipeline wNoLog = (⟨[], none, false⟩, some PyErr.fileNotFound)
    ∧ pyMain wNoLog = (⟨[], none, false⟩, false, some Caught.unknownC) :=
  c9_theorem wNoLog rfl (by decide) rfl

theorem pipelineRest_events (w : World) (f : String) (s1 : St)
    (hs1 : s1.events = [Ev.download f, Ev.ledgerWrite (logLine f)]) :
    ∃ n, 2 ≤ n ∧ (pipelineRest w f s1).1.events = (script f).take n := by
  unfold pipelineRest
  cases hu : w.unzipOk with
  | false =>
    refine ⟨2, by omega, ?_⟩
    show s1.events = (script f).take 2
    rw [hs1]
    rfl
  | true =>
    rcases hc : change_pictures w.rows with e | r2
    · refine ⟨5, by omega, ?_⟩
      show s1.events ++ [Ev.expand f] ++ [Ev.rename (convertName f ".csv")]
          ++ [Ev.transform (convertName f ".csv")] = (script f).take 5
      rw [hs1]
      rfl
    · cases hup : w.uploadOk with
      | false =>
        refine ⟨7, by omega, ?_⟩
        show s1.events ++ [Ev.expand f] ++ [Ev.rename (convertName f ".csv")]
            ++ [Ev.transform (convertName f ".csv")]
            ++ [Ev.rename (convertName (convertName f ".csv") ".txt")]
            ++ [Ev.upload (convertName (convertName f ".csv") ".txt")]
            = (script f).take 7
        rw [hs1]
        rfl
      | true =>
        refine ⟨8, by omega, ?_⟩
        show s1.events ++ [Ev.expand f] ++ [Ev.rename (convertName f ".csv")]
            ++ [Ev.transform (convertName f ".csv")]
            ++ [Ev.rename (convertName (convertName f ".csv") ".txt")]
            ++ [Ev.upload (convertName (convertName f ".csv") ".txt")]
            ++ [Ev.cleanup]
            = (script f).take 8
        rw [hs1]
        rfl

theorem runPipeline_events (w : World) :
    (runPipeline w).1.events = []
    ∨ ∃ f n, 2 ≤ n ∧ (runPipeline w).1.events = (script f).take n := by
  unfold runPipeline
  simp only []
  rcases hd : download_sftp w ⟨[], w.ledger, false⟩ with e | ⟨f, s1⟩
  · left
    rfl
  · right
    have hs1 : s1.events = [Ev.download f, Ev.ledgerWrite (logLine f)] := by
      simpa using download_sftp_ok w ⟨[], w.ledger, false⟩ s1 f hd
    obtain ⟨n, hn, he⟩ := pipelineRest_events w f s1 hs1
    exact ⟨f, n, hn, he⟩

theorem script_download_idx (f g : String) (i : Nat)
    (h : (script f)[i]? = some (Ev.download g)) : i = 0 ∧ g = f := by
  rcases i with _ | _ | _ | _ | _ | _ | _ | _ | i <;> simp [script] at h
  exact ⟨rfl, h.symm⟩

theorem script_subsequent_low (f : String) (j : Nat) (e : Ev)
    (h : (script f)[j]? = some e) (hs : isSubsequentStep e = true) : 2 ≤ j := by
  rcases j with _ | _ | j
  · simp [script] at h
    rw [← h] at hs
    simp [isSubsequentStep] at hs
  · simp [script] at h
    rw [← h] at hs
    simp [isSubsequentStep] at hs
  · omega

/-- C7: in every run, a download event is immediately followed by the
ledger-write event for the downloaded file, and every later pipeline
step (expansion, rename, transform, upload) occurs strictly after that
ledger write. -/
theorem c7_theorem (w : World) (i : Nat) (f : String)
    (h : ((pyMain w).1.events)[i]? = some (Ev.download f)) :
    ((pyMain w).1.events)[i + 1]? = some (Ev.ledgerWrite (logLine f))
    ∧ ∀ j e, ((pyMain w).1.events)[j]? = some e →
        isSubsequentStep e = true → i + 1 < j := by
  have hev : (pyMain w).1 = (runPipeline w).1 := by
    unfold pyMain
    rcases runPipeline w with ⟨s, _ | e⟩ <;> rfl
  rw [hev] at h ⊢
  rcases runPipeline_events w with h0 | ⟨g, n, hn, hsh⟩
  · rw [h0] at h
    simp at h
  · rw [hsh] at h ⊢
    rw [List.getElem?_take] at h
    by_cases hin : i < n
    · rw [if_pos hin] at h
      obtain ⟨hi0, hgf⟩ := script_download_idx g f i h
      subst hi0
      rw [hgf]
      constructor
      · rw [List.getElem?_take, if_pos (by omega : 0 + 1 < n)]
        rfl
      · intro j e hj hse
        rw [List.getElem?_take] at hj
        by_cases hjn : j < n
        · rw [if_pos hjn] at hj
          have := script_subsequent_low g j e hj hse
          omega
        · rw [if_neg hjn] at hj
          cases hj
    · rw [if_neg hin] at h
      cases h

/-- C7 witness: in the successful concrete run, the event after the
download (index 0) is the ledger write for the downloaded file. -/
theorem c7_witness :
    ((pyMain wOk).1.events)[1]? = some (Ev.ledgerWrite (logLine fileA)) :=
  (c7_theorem wOk 0 fileA (by decide)).1
